import Mathlib

/-!
# go-taxa-tesouro-feeder: window gate, relay pipeline and scheduler

A shallow embedding of `scraper.go`:

* `shouldScrape` is the pure window predicate, with `time.Now().In(loc)` passed
  in as a `LocalTime` (weekday and hour of the localized instant);
* `scrape` is the fetch-and-forward pipeline.  The network is a parameter
  (`Net`): the impersonating GET, URL parsing inside `http.NewRequest` and
  `http.DefaultClient.Do`.  The function returns the ordered list of effects
  it performs (calls, log records, deferred closes);
* `step` is the control flow of `Run` as a labelled transition function, with
  the Go `select` over `ticker.C` and `ctx.Done()` made explicit.
-/

namespace Feeder

/-! ## Data model -/

/-- Go `error` values are represented by their message. -/
abbrev GoError := String

/-- Go `[]byte`. -/
abbrev Bytes := List UInt8

/-- The configuration keys read through `viper` in `scraper.go`. -/
structure Config where
  START_DAY : Int
  END_DAY : Int
  START_HOUR : Int
  END_HOUR : Int
  INTERVAL_MINUTES : Int
  URL_TESOURO : String
  URL_API : String
  API_KEY : String

/-- The two components of `time.Now().In(loc)` that `shouldScrape` reads:
`Weekday()` (0 = Sunday .. 6 = Saturday) and `Hour()` (0 .. 23). -/
structure LocalTime where
  Weekday : Fin 7
  Hour : Fin 24

/-- A Go `string`: an immutable byte sequence, not required to be valid UTF-8. -/
structure GoString where
  bytes : Bytes

/-- The conversion `string(data)` of a byte slice: the bytes are copied as they are. -/
def bytesToString (data : Bytes) : GoString := ⟨data⟩

/-- The bytes a `strings.NewReader(s)` yields when read to the end. -/
def stringsNewReader (s : GoString) : Bytes := s.bytes

/-- What `io.ReadAll` returns on a response body: the bytes read and the error
(`none` when the body was read up to EOF). -/
structure BodyStream where
  data : Bytes
  err : Option GoError

/-- An `*http.Response`: the fields the code reads, `StatusCode` and `Body`,
and the body bytes the peer put on the wire.  For the response of the
impersonating client, reading `Body` yields the wire body as that client
delivers it: by default it decodes the body to UTF-8. -/
structure HttpResponse where
  StatusCode : Int
  /-- The body bytes sent by the peer; the code has no access to them. -/
  Wire : Bytes
  Body : BodyStream

/-- The `*req.Response` returned by `Get(..).Do()`: the embedded `*http.Response`
(`none` for nil) and the `Err` field (`none` for nil).  They are two separate
fields of the library type; the client sets `Err` beside a response when it
fails after the status line was received, for instance on a truncated body. -/
structure ReqResponse where
  Response : Option HttpResponse
  Err : Option GoError

/-- An `http.Header` restricted to single-valued keys. -/
abbrev Header := List (String × String)

/-- The call `Header.Set(key, value)`: replaces what was stored under `key`.
Both keys used by `scrape` are already in canonical MIME form. -/
def Header.Set (h : Header) (key value : String) : Header :=
  (key, value) :: h.filter (fun kv => kv.1 != key)

/-- The call `Header.Get(key)`. -/
def Header.Get (h : Header) (key : String) : Option String :=
  (h.find? (fun kv => kv.1 == key)).map (fun kv => kv.2)

/-- An outgoing `*http.Request`. -/
structure Request where
  Method : String
  URL : String
  Header : Header
  Body : Bytes

/-- The network as seen by `scrape`. -/
structure Net where
  /-- Outcome of `req.ImpersonateChrome().Get(url).Do()`. -/
  Get : String → ReqResponse
  /-- Outcome of URL parsing inside `http.NewRequest` (`none`: the URL parses). -/
  ParseURL : String → Option GoError
  /-- Outcome of `http.DefaultClient.Do(postReq)`. -/
  Do : Request → Except GoError HttpResponse

/-- The call `http.NewRequest(method, url, body)`: fails when the URL does not
parse, otherwise a request with an empty header. -/
def NewRequest (net : Net) (method url : String) (body : Bytes) : Except GoError Request :=
  match net.ParseURL url with
  | some e => .error e
  | none => .ok { Method := method, URL := url, Header := [], Body := body }

/-- Values attached to a log record. -/
inductive LogValue where
  | err (e : Option GoError)
  | str (s : String)
  | int (n : Int)
deriving DecidableEq, Repr

/-- Log levels of `log/slog` used by the scraper. -/
inductive Level where
  | Debug
  | Info
  | Error
deriving DecidableEq, Repr

/-- Observable effects of the scraper, in program order. -/
inductive Effect where
  /-- The impersonated GET was issued to the URL. -/
  | get (url : String)
  /-- The call `io.ReadAll(res.Body)`. -/
  | readAll
  /-- The call `http.NewRequest`. -/
  | newRequest (method url : String) (body : Bytes)
  /-- The call `http.DefaultClient.Do(postReq)`. -/
  | send (postReq : Request)
  /-- The deferred `res.Body.Close()`. -/
  | closeBody
  /-- The deferred `postRes.Body.Close()`. -/
  | closePostBody
  /-- A log call with message and optional key/value pair. -/
  | log (level : Level) (msg : String) (attr : Option (String × LogValue))

/-! ## The window gate -/

/-- The method `scraper.shouldScrape`, with `now := time.Now().In(loc)` as input. -/
def shouldScrape (cfg : Config) (now : LocalTime) : Bool :=
  decide ((now.Weekday.val : Int) ≥ cfg.START_DAY) &&
  decide ((now.Weekday.val : Int) ≤ cfg.END_DAY) &&
  decide ((now.Hour.val : Int) ≥ cfg.START_HOUR) &&
  decide ((now.Hour.val : Int) < cfg.END_HOUR)

/-! ## The relay pipeline -/

/-- The method `scraper.scrape`: the effects of one run, in order. -/
def scrape (cfg : Config) (net : Net) : List Effect :=
  let res := net.Get cfg.URL_TESOURO
  Effect.get cfg.URL_TESOURO ::
  match res.Response with
  | none => [.log .Error "Failed to fetch data" (some ("error", .err res.Err))]
  | some resp =>
    if resp.StatusCode ≠ 200 then
      [.log .Error "Failed to fetch data" (some ("status code", .int resp.StatusCode))]
    else
      Effect.readAll ::
      match resp.Body.err with
      | some e =>
        [.log .Error "Failed to read response body" (some ("error", .str e)), .closeBody]
      | none =>
        let data := resp.Body.data
        let url := cfg.URL_API ++ "/bonds"
        let body := stringsNewReader (bytesToString data)
        Effect.newRequest "POST" url body ::
        match NewRequest net "POST" url body with
        | .error e =>
          [.log .Error "Failed to create HTTP request" (some ("error", .str e)), .closeBody]
        | .ok postReq0 =>
          let postReq1 : Request :=
            { postReq0 with Header := postReq0.Header.Set "Content-Type" "application/json" }
          let postReq : Request :=
            { postReq1 with
              Header := postReq1.Header.Set "Authorization" ("Bearer " ++ cfg.API_KEY) }
          Effect.send postReq ::
          match net.Do postReq with
          | .error e =>
            [.log .Error "Failed to send data" (some ("error", .str e)), .closeBody]
          | .ok postRes =>
            if postRes.StatusCode ≠ 201 then
              [.log .Error "Failed to send data" (some ("status code", .int postRes.StatusCode)),
                .closePostBody, .closeBody]
            else
              [.closePostBody, .closeBody]

/-- Whether an effect is an `Error`-level log record. -/
def Effect.isErrorLog : Effect → Bool
  | .log .Error _ _ => true
  | _ => false

/-- Whether an effect is one of the pipeline stages (GET, body read, request
build, POST), as opposed to a log record or a deferred close. -/
def Effect.isStage : Effect → Bool
  | .get _ => true
  | .readAll => true
  | .newRequest _ _ _ => true
  | .send _ => true
  | _ => false

/-- Whether an effect is a POST sent to the destination. -/
def Effect.isSend : Effect → Bool
  | .send _ => true
  | _ => false

/-- The error records logged by a run. -/
def errorLogs (fx : List Effect) : List Effect := fx.filter Effect.isErrorLog

/-- Number of POST calls the destination receives in a run. -/
def postCalls (fx : List Effect) : Nat := fx.countP Effect.isSend

/-- The bodies of the POST requests sent in a run, in order. -/
def sentBodies (fx : List Effect) : List Bytes :=
  fx.filterMap (fun e => match e with
    | .send postReq => some postReq.Body
    | _ => none)

/-! ## The scheduler -/

/-- Control points of `Run`. -/
inductive Pc where
  /-- Entry of `Run`, before `time.LoadLocation`. -/
  | start
  /-- The startup call `s.scrape()` is executing. -/
  | bootstrap
  /-- At the `select` statement, about to poll `ticker.C` and `ctx.Done()`. -/
  | selecting
  /-- Blocked in the `select`: neither channel was ready when it was polled. -/
  | waiting
  /-- The case `<-ticker.C` was taken; `s.shouldScrape(loc)` is next. -/
  | evaluating
  /-- The call `s.scrape()` of a tick is executing. -/
  | scraping
  /-- The case `<-ctx.Done()` was taken; the return is next. -/
  | stopping
  /-- The method has returned. -/
  | returned
  /-- The call `time.NewTicker` panicked on a non-positive period. -/
  | panicked
deriving DecidableEq, Repr

/-- What `Run` does, in program order. -/
inductive Act where
  | log (level : Level) (msg : String)
  /-- The call `s.scrape()` is entered. -/
  | scrapeCall
  /-- The call `s.scrape()` returns, having performed the effects `fx`. -/
  | scrapeReturn (fx : List Effect)
  /-- The call `time.NewTicker(d)`. -/
  | newTicker (d : Int)
  /-- A value was received from `ticker.C`. -/
  | recvTick
  /-- The receive from `ctx.Done()` succeeded. -/
  | recvDone
  /-- The call `s.shouldScrape(loc)` at localized time `now`, with its result. -/
  | gate (now : LocalTime) (result : Bool)
  /-- The deferred `ticker.Stop()`. -/
  | tickerStop
  /-- The deferred `s.wg.Done()`. -/
  | wgDone
  /-- A run-time panic. -/
  | panic

/-- State of one execution of `Run` together with the two channels it selects on. -/
structure Sched where
  pc : Pc
  /-- The channel `ticker.C` (capacity 1) holds a tick. -/
  tickBuf : Bool
  /-- The channel `ctx.Done()` is closed. -/
  cancelled : Bool
  /-- The ticker has been created and not stopped. -/
  tickerRunning : Bool
  /-- What `Run` has done so far, oldest first. -/
  trace : List Act

/-- Labels of the transitions: steps of `Run` with the outcome the environment
contributes, and the two environment events. -/
inductive Ev where
  /-- The call `time.LoadLocation("America/Sao_Paulo")` returns; `ok` iff `err == nil`. -/
  | loadLocation (ok : Bool)
  /-- The running `s.scrape()` returns, having talked to the network `net`. -/
  | scrapeDone (net : Net)
  /-- The `select` polls its channels; `pickTick` resolves the pseudo-random
  choice Go makes when both are ready. -/
  | poll (pickTick : Bool)
  /-- The ticker fires. -/
  | tickFire
  /-- The context is cancelled (SIGINT or SIGTERM). -/
  | cancel
  /-- The call `s.shouldScrape(loc)` is made at localized time `now`. -/
  | gate (now : LocalTime)
  /-- The `ctx.Done()` case runs to its `return`. -/
  | ret

/-- Wrap-around (two-complement) of `int64` arithmetic. -/
def wrapInt64 (x : Int) : Int := (x + 2 ^ 63) % 2 ^ 64 - 2 ^ 63

/-- The argument of `time.NewTicker`: `viper.GetDuration("INTERVAL_MINUTES") * time.Minute`,
where `cfg.INTERVAL_MINUTES` is the `int64` value of the `GetDuration` call. -/
def tickerPeriod (cfg : Config) : Int := wrapInt64 (cfg.INTERVAL_MINUTES * 60000000000)

/-- State at the entry of `Run`. -/
def Sched.init : Sched :=
  { pc := .start, tickBuf := false, cancelled := false, tickerRunning := false, trace := [] }

/-- The `select` takes `case <-ticker.C`. -/
def takeTick (s : Sched) : Sched :=
  { s with pc := .evaluating, tickBuf := false, trace := s.trace ++ [.recvTick] }

/-- The `select` takes `case <-ctx.Done()`. -/
def takeDone (s : Sched) : Sched :=
  { s with pc := .stopping, trace := s.trace ++ [.recvDone] }

/-- One transition of `Run` or of its environment; `none` when the label is
not enabled in the state. -/
def step (cfg : Config) (s : Sched) : Ev → Option Sched
  | .loadLocation ok =>
    if s.pc = .start then
      if ok then
        some { s with pc := .bootstrap, trace := s.trace ++ [.scrapeCall] }
      else
        some { s with pc := .returned,
                      trace := s.trace ++ [.log .Error "Error loading location", .wgDone] }
    else none
  | .scrapeDone net =>
    match s.pc with
    | .bootstrap =>
      let tr := s.trace ++ [.scrapeReturn (scrape cfg net),
                  .log .Info "Initial scraping finished", .newTicker (tickerPeriod cfg)]
      if tickerPeriod cfg ≤ 0 then
        some { s with pc := .panicked, trace := tr ++ [.panic, .wgDone] }
      else
        some { s with pc := .selecting, tickerRunning := true, trace := tr }
    | .scraping =>
      some { s with pc := .selecting,
                    trace := s.trace ++ [.scrapeReturn (scrape cfg net),
                      .log .Debug "Scraping finished"] }
    | _ => none
  | .poll pickTick =>
    if s.pc = .selecting then
      match s.tickBuf, s.cancelled with
      | false, false => some { s with pc := .waiting }
      | true, false => some (takeTick s)
      | false, true => some (takeDone s)
      | true, true => some (if pickTick then takeTick s else takeDone s)
    else none
  | .tickFire =>
    if s.tickerRunning then
      if s.pc = .waiting then some (takeTick s)
      else some { s with tickBuf := true }
    else none
  | .cancel =>
    if s.pc = .waiting then some (takeDone { s with cancelled := true })
    else some { s with cancelled := true }
  | .gate now =>
    if s.pc = .evaluating then
      if shouldScrape cfg now then
        some { s with pc := .scraping,
                      trace := s.trace ++ [.gate now true, .log .Debug "Scraping started",
                        .scrapeCall] }
      else
        some { s with pc := .selecting, trace := s.trace ++ [.gate now false] }
    else none
  | .ret =>
    if s.pc = .stopping then
      some { s with pc := .returned, tickerRunning := false,
                    trace := s.trace ++ [.log .Info "Scraper stopped", .tickerStop, .wgDone] }
    else none

/-- Execution of a sequence of labels; `none` as soon as one is not enabled. -/
def run (cfg : Config) (s : Sched) : List Ev → Option Sched
  | [] => some s
  | e :: es => (step cfg s e).bind (fun t => run cfg t es)

/-- Whether an action enters `s.scrape()`. -/
def Act.isScrapeCall : Act → Bool
  | .scrapeCall => true
  | _ => false

/-- Whether an action is a return of `s.scrape()`. -/
def Act.isScrapeReturn : Act → Bool
  | .scrapeReturn _ => true
  | _ => false

/-- Whether an action consults `shouldScrape`. -/
def Act.isGate : Act → Bool
  | .gate _ _ => true
  | _ => false

/-- Whether an action observes a tick or the cancellation. -/
def Act.isRecv : Act → Bool
  | .recvTick => true
  | .recvDone => true
  | _ => false

/-- Whether an action creates the ticker. -/
def Act.isNewTicker : Act → Bool
  | .newTicker _ => true
  | _ => false

/-- Whether a label is a firing of the ticker. -/
def Ev.isTickFire : Ev → Bool
  | .tickFire => true
  | _ => false

/-- Number of pipeline invocations started in a trace. -/
def scrapeCalls (tr : List Act) : Nat := tr.countP Act.isScrapeCall

/-- Number of pipeline invocations completed in a trace. -/
def scrapeReturns (tr : List Act) : Nat := tr.countP Act.isScrapeReturn

/-- The actions of `Run` from the startup invocation up to the creation of the
ticker, when the startup `s.scrape()` talked to `net`. -/
def bootTrace (cfg : Config) (net : Net) : List Act :=
  [.scrapeCall, .scrapeReturn (scrape cfg net), .log .Info "Initial scraping finished",
    .newTicker (tickerPeriod cfg)]

/-! ## Concrete inputs used in examples -/

/-- A window Monday to Friday, 09:00 to 18:00. -/
def cfgWeek : Config :=
  { START_DAY := 1, END_DAY := 5, START_HOUR := 9, END_HOUR := 18, INTERVAL_MINUTES := 5,
    URL_TESOURO := "https://src.example/data.json", URL_API := "https://api.example",
    API_KEY := "k" }

/-- The request `scrape` hands to `http.DefaultClient.Do` when the body `data`
was read and the destination URL parses. -/
def postRequest (cfg : Config) (data : Bytes) : Request :=
  { Method := "POST", URL := cfg.URL_API ++ "/bonds",
    Header := (Header.Set (Header.Set [] "Content-Type" "application/json")
      "Authorization" ("Bearer " ++ cfg.API_KEY)),
    Body := data }

/-- The conditions of a successful run: the GET produced a response with
status 200 and reported no error, the body was read in full without error, the
POST request was built, the POST was executed without transport error and the
destination status is 201.  The impersonating client reads the body itself and
reports a failed or truncated read in `Err`. -/
def AllStagesOk (cfg : Config) (net : Net) : Prop :=
  ∃ resp postRes,
    (net.Get cfg.URL_TESOURO).Response = some resp ∧ (net.Get cfg.URL_TESOURO).Err = none ∧
    resp.StatusCode = 200 ∧ resp.Body.err = none ∧
    net.ParseURL (cfg.URL_API ++ "/bonds") = none ∧
    net.Do (postRequest cfg resp.Body.data) = .ok postRes ∧ postRes.StatusCode = 201

/-- A window whose hour range is empty: 09:00 to 09:00. -/
def cfgEmptyHours : Config := { cfgWeek with START_HOUR := 9, END_HOUR := 9 }

/-- A source that announces a two-byte body `[]` and closes the connection
after the first byte: the client returns the response (status 200) together
with the error of the truncated read in `Err`, reading `Body` yields the one
byte without error, and the destination answers 201. -/
def netTruncated : Net :=
  { Get := fun _ =>
      { Response := some { StatusCode := 200, Wire := [0x5b],
                           Body := { data := [0x5b], err := none } },
        Err := some "unexpected EOF" },
    ParseURL := fun _ => none,
    Do := fun _ => .ok { StatusCode := 201, Wire := [], Body := { data := [], err := none } } }

/-- A source that sends the one byte `e9` declared as ISO-8859-1 text: the
client decodes it to the two UTF-8 bytes `c3 a9`; the destination answers 201. -/
def netLatin1 : Net :=
  { Get := fun _ =>
      { Response := some { StatusCode := 200, Wire := [0xe9],
                           Body := { data := [0xc3, 0xa9], err := none } },
        Err := none },
    ParseURL := fun _ => none,
    Do := fun _ => .ok { StatusCode := 201, Wire := [], Body := { data := [], err := none } } }

/-- A source that answers `status` with a body that reaches the code as `data`,
and a destination that answers `postStatus`. -/
def netOf (status : Int) (data : Bytes) (postStatus : Int) : Net :=
  { Get := fun _ =>
      { Response := some { StatusCode := status, Wire := data,
                           Body := { data := data, err := none } },
        Err := none },
    ParseURL := fun _ => none,
    Do := fun _ =>
      .ok { StatusCode := postStatus, Wire := [], Body := { data := [], err := none } } }

/-- A source whose transport fails: no response, `Err` set. -/
def netDown : Net :=
  { Get := fun _ => { Response := none, Err := some "dial tcp: connection refused" },
    ParseURL := fun _ => none,
    Do := fun _ => .error "unreachable" }

/-- Monday 09:00. -/
def monday9 : LocalTime := { Weekday := 1, Hour := 9 }

/-- Sunday 12:00. -/
def sunday12 : LocalTime := { Weekday := 0, Hour := 12 }

/-- A state of `Run` blocked in its `select`, reached from the entry: the time
zone loads, the startup invocation finds the source down, the first poll finds
neither channel ready. -/
def schedWaiting : Sched :=
  (run cfgWeek Sched.init [.loadLocation true, .scrapeDone netDown, .poll false]).getD Sched.init

/-- The state after a tick reaches `schedWaiting`: the tick case is taken. -/
def schedEvaluating : Sched :=
  (run cfgWeek schedWaiting [.tickFire]).getD Sched.init

/-- The state after that tick found the window open on Monday 09:00: an
invocation is executing. -/
def schedScraping : Sched :=
  (run cfgWeek schedEvaluating [.gate { Weekday := 1, Hour := 9 }]).getD Sched.init

/-- An execution from `schedWaiting` in which the ticker fires three times, the
second and third time while the invocation of the first tick is executing; the
window is open whenever the gate is consulted. -/
def threeTicks : List Ev :=
  [.tickFire, .gate monday9, .tickFire, .tickFire, .scrapeDone netDown, .poll true,
    .gate monday9, .scrapeDone netDown, .poll true]

/-! ## The relay pipeline: lemmas -/

/-- The trace of `scrape` when the GET result carries no response. -/
theorem scrape_of_no_response (cfg : Config) (net : Net)
    (hget : (net.Get cfg.URL_TESOURO).Response = none) :
    scrape cfg net =
      [.get cfg.URL_TESOURO,
        .log .Error "Failed to fetch data"
          (some ("error", .err (net.Get cfg.URL_TESOURO).Err))] := by
  simp [scrape, hget]

/-- The trace of `scrape` when the source status is not 200. -/
theorem scrape_of_bad_status (cfg : Config) (net : Net) (resp : HttpResponse)
    (hget : (net.Get cfg.URL_TESOURO).Response = some resp)
    (hstatus : resp.StatusCode ≠ 200) :
    scrape cfg net =
      [.get cfg.URL_TESOURO,
        .log .Error "Failed to fetch data" (some ("status code", .int resp.StatusCode))] := by
  simp [scrape, hget, hstatus]

/-- The trace of `scrape` when `io.ReadAll` returns an error. -/
theorem scrape_of_read_error (cfg : Config) (net : Net) (resp : HttpResponse) (e : GoError)
    (hget : (net.Get cfg.URL_TESOURO).Response = some resp) (h200 : resp.StatusCode = 200)
    (hread : resp.Body.err = some e) :
    scrape cfg net =
      [.get cfg.URL_TESOURO, .readAll,
        .log .Error "Failed to read response body" (some ("error", .str e)), .closeBody] := by
  simp [scrape, hget, h200, hread]

/-- The trace of `scrape` when `http.NewRequest` fails. -/
theorem scrape_of_build_error (cfg : Config) (net : Net) (resp : HttpResponse) (e : GoError)
    (hget : (net.Get cfg.URL_TESOURO).Response = some resp) (h200 : resp.StatusCode = 200)
    (hread : resp.Body.err = none) (hurl : net.ParseURL (cfg.URL_API ++ "/bonds") = some e) :
    scrape cfg net =
      [.get cfg.URL_TESOURO, .readAll,
        .newRequest "POST" (cfg.URL_API ++ "/bonds") resp.Body.data,
        .log .Error "Failed to create HTTP request" (some ("error", .str e)), .closeBody] := by
  simp [scrape, hget, h200, hread, NewRequest, hurl, stringsNewReader, bytesToString]

/-- The trace of `scrape` once the body was read and the destination URL parses. -/
theorem scrape_of_built (cfg : Config) (net : Net) (resp : HttpResponse)
    (hget : (net.Get cfg.URL_TESOURO).Response = some resp) (h200 : resp.StatusCode = 200)
    (hread : resp.Body.err = none) (hurl : net.ParseURL (cfg.URL_API ++ "/bonds") = none) :
    scrape cfg net =
      [.get cfg.URL_TESOURO, .readAll,
        .newRequest "POST" (cfg.URL_API ++ "/bonds") resp.Body.data,
        .send (postRequest cfg resp.Body.data)] ++
      (match net.Do (postRequest cfg resp.Body.data) with
        | .error e => [.log .Error "Failed to send data" (some ("error", .str e)), .closeBody]
        | .ok postRes =>
          if postRes.StatusCode ≠ 201 then
            [.log .Error "Failed to send data" (some ("status code", .int postRes.StatusCode)),
              .closePostBody, .closeBody]
          else [.closePostBody, .closeBody]) := by
  simp [scrape, hget, h200, hread, NewRequest, hurl, postRequest, stringsNewReader, bytesToString]

/-- The fields of the request `scrape` sends. -/
theorem postRequest_fields (cfg : Config) (data : Bytes) :
    (postRequest cfg data).Body = data ∧ (postRequest cfg data).Method = "POST" ∧
    (postRequest cfg data).URL = cfg.URL_API ++ "/bonds" ∧
    (postRequest cfg data).Header.Get "Content-Type" = some "application/json" ∧
    (postRequest cfg data).Header.Get "Authorization" = some ("Bearer " ++ cfg.API_KEY) := by
  simp [postRequest, Header.Get, Header.Set]

/-- What the code tests: a run logs no error record iff the GET result carries
a response with status 200, `io.ReadAll` returns no error, the destination URL
parses, `Do` returns no error and the destination status is 201; the `Err`
field of the GET result is not among the conditions.  A run logs at most one
error record. -/
theorem scrape_no_error_iff (cfg : Config) (net : Net) :
    (errorLogs (scrape cfg net) = [] ↔
      ∃ resp postRes,
        (net.Get cfg.URL_TESOURO).Response = some resp ∧ resp.StatusCode = 200 ∧
        resp.Body.err = none ∧ net.ParseURL (cfg.URL_API ++ "/bonds") = none ∧
        net.Do (postRequest cfg resp.Body.data) = .ok postRes ∧ postRes.StatusCode = 201) ∧
    (errorLogs (scrape cfg net)).length ≤ 1 := by
  cases hget : (net.Get cfg.URL_TESOURO).Response with
  | none =>
    rw [scrape_of_no_response cfg net hget]
    simp [errorLogs, Effect.isErrorLog]
  | some resp =>
    by_cases h200 : resp.StatusCode = 200
    · cases hread : resp.Body.err with
      | some e =>
        rw [scrape_of_read_error cfg net resp e hget h200 hread]
        simp [errorLogs, Effect.isErrorLog, hread]
      | none =>
        cases hurl : net.ParseURL (cfg.URL_API ++ "/bonds") with
        | some e =>
          rw [scrape_of_build_error cfg net resp e hget h200 hread hurl]
          simp [errorLogs, Effect.isErrorLog]
        | none =>
          have h := scrape_of_built cfg net resp hget h200 hread hurl
          cases hdo : net.Do (postRequest cfg resp.Body.data) with
          | error e =>
            rw [hdo] at h
            rw [h]
            simp [errorLogs, Effect.isErrorLog, hdo]
          | ok postRes =>
            rw [hdo] at h
            by_cases hs : postRes.StatusCode = 201
            · rw [h]
              simp [errorLogs, Effect.isErrorLog, hs, h200, hread, hdo]
            · rw [h]
              simp [errorLogs, Effect.isErrorLog, hs, hdo]
    · rw [scrape_of_bad_status cfg net resp hget h200]
      simp [errorLogs, Effect.isErrorLog, h200]

/-! ## The scheduler: lemmas -/

/-- A transition only appends to the trace. -/
theorem step_trace_append (cfg : Config) (s t : Sched) (e : Ev) (h : step cfg s e = some t) :
    ∃ ext, t.trace = s.trace ++ ext := by
  obtain ⟨pc, tb, c, tr, trace⟩ := s
  cases e <;> cases pc <;> cases tb <;> cases c <;> cases tr <;>
    simp [step, takeTick, takeDone] at h <;>
    (try split_ifs at h) <;>
    (try simp at h) <;>
    (try (subst h; simp))

/-- An execution only appends to the trace. -/
theorem run_trace_append (cfg : Config) (evs : List Ev) :
    ∀ (s t : Sched), run cfg s evs = some t → ∃ ext, t.trace = s.trace ++ ext := by
  induction evs with
  | nil =>
    intro s t h
    simp only [run, Option.some.injEq] at h
    exact ⟨[], by simp [h]⟩
  | cons e es ih =>
    intro s t h
    simp only [run] at h
    cases hs : step cfg s e with
    | none => simp [hs] at h
    | some u =>
      rw [hs] at h
      simp only [Option.some_bind] at h
      obtain ⟨x, hx⟩ := step_trace_append cfg s u e hs
      obtain ⟨y, hy⟩ := ih u t h
      exact ⟨x ++ y, by rw [hy, hx, List.append_assoc]⟩

/-- The number of completed invocations never decreases along an execution. -/
theorem run_scrapeReturns_mono (cfg : Config) (evs : List Ev) (s t : Sched)
    (h : run cfg s evs = some t) : scrapeReturns s.trace ≤ scrapeReturns t.trace := by
  obtain ⟨ext, hext⟩ := run_trace_append cfg evs s t h
  rw [hext]
  simp [scrapeReturns, List.countP_append]

/-- Once the `ctx.Done()` case is taken, a transition leads to `stopping` or
`returned` and starts no invocation. -/
theorem step_of_stopping (cfg : Config) (s t : Sched) (e : Ev)
    (hpc : s.pc = .stopping ∨ s.pc = .returned) (h : step cfg s e = some t) :
    (t.pc = .stopping ∨ t.pc = .returned) ∧ scrapeCalls t.trace = scrapeCalls s.trace := by
  obtain ⟨pc, tb, c, tr, trace⟩ := s
  simp only at hpc
  rcases hpc with hpc | hpc <;> subst hpc <;>
    cases e <;> cases tb <;> cases c <;> cases tr <;>
    simp [step, takeTick, takeDone] at h <;>
    (try (subst h; simp [scrapeCalls, List.countP_append, Act.isScrapeCall]))

/-- Once the `ctx.Done()` case is taken, an execution stays in `stopping` or
`returned` and starts no invocation. -/
theorem run_of_stopping (cfg : Config) (evs : List Ev) :
    ∀ (s t : Sched), (s.pc = .stopping ∨ s.pc = .returned) → run cfg s evs = some t →
      (t.pc = .stopping ∨ t.pc = .returned) ∧ scrapeCalls t.trace = scrapeCalls s.trace := by
  induction evs with
  | nil =>
    intro s t hpc h
    simp only [run, Option.some.injEq] at h
    subst h
    exact ⟨hpc, rfl⟩
  | cons e es ih =>
    intro s t hpc h
    simp only [run] at h
    cases hs : step cfg s e with
    | none => simp [hs] at h
    | some u =>
      rw [hs] at h
      simp only [Option.some_bind] at h
      obtain ⟨hu, hcu⟩ := step_of_stopping cfg s u e hpc hs
      obtain ⟨ht, hct⟩ := ih u t hu h
      exact ⟨ht, by rw [hct, hcu]⟩

/-- While an invocation is executing, a transition either leaves the control
point and the trace as they are or is the return of that invocation. -/
theorem step_of_in_flight (cfg : Config) (s t : Sched) (e : Ev)
    (hpc : s.pc = .scraping ∨ s.pc = .bootstrap) (h : step cfg s e = some t) :
    (t.pc = s.pc ∧ t.trace = s.trace) ∨
      scrapeReturns t.trace = scrapeReturns s.trace + 1 := by
  obtain ⟨pc, tb, c, tr, trace⟩ := s
  simp only at hpc
  rcases hpc with hpc | hpc <;> subst hpc <;>
    cases e <;> cases tb <;> cases c <;> cases tr <;>
    simp [step, takeTick, takeDone] at h <;>
    (try split_ifs at h) <;>
    (try simp at h) <;>
    (try (subst h; simp [scrapeReturns, List.countP_append, Act.isScrapeReturn]))

/-- An execution that starts while an invocation is executing either is still
inside that invocation or has seen it return. -/
theorem run_of_in_flight (cfg : Config) (evs : List Ev) :
    ∀ (s t : Sched), (s.pc = .scraping ∨ s.pc = .bootstrap) → run cfg s evs = some t →
      (t.pc = s.pc ∧ t.trace = s.trace) ∨ scrapeReturns s.trace < scrapeReturns t.trace := by
  induction evs with
  | nil =>
    intro s t _ h
    simp only [run, Option.some.injEq] at h
    subst h
    exact Or.inl ⟨rfl, rfl⟩
  | cons e es ih =>
    intro s t hpc h
    simp only [run] at h
    cases hs : step cfg s e with
    | none => simp [hs] at h
    | some u =>
      rw [hs] at h
      simp only [Option.some_bind] at h
      rcases step_of_in_flight cfg s u e hpc hs with ⟨hupc, hutr⟩ | hret
      · have hu : u.pc = .scraping ∨ u.pc = .bootstrap := by rw [hupc]; exact hpc
        rcases ih u t hu h with ⟨htpc, httr⟩ | hlt
        · exact Or.inl ⟨by rw [htpc, hupc], by rw [httr, hutr]⟩
        · exact Or.inr (by rw [← hutr]; exact hlt)
      · have hmono := run_scrapeReturns_mono cfg es u t h
        exact Or.inr (by omega)

/-- No transition leads back to the entry of `Run` or into the startup invocation
from a later control point. -/
theorem step_past_bootstrap (cfg : Config) (s t : Sched) (e : Ev)
    (hs : s.pc ≠ .start ∧ s.pc ≠ .bootstrap) (h : step cfg s e = some t) :
    t.pc ≠ .start ∧ t.pc ≠ .bootstrap := by
  obtain ⟨pc, tb, c, tr, trace⟩ := s
  cases e <;> cases pc <;> cases tb <;> cases c <;> cases tr <;>
    simp [step, takeTick, takeDone] at h hs <;>
    (try split_ifs at h) <;>
    (try simp at h) <;>
    (try (subst h; simp))

/-- The call `time.LoadLocation` happens at the entry of `Run` only. -/
theorem run_no_loadLocation (cfg : Config) (evs : List Ev) :
    ∀ (s t : Sched) (ok : Bool), s.pc ≠ .start → run cfg s evs = some t →
      Ev.loadLocation ok ∉ evs := by
  induction evs with
  | nil => intro s t ok _ _; simp
  | cons e es ih =>
    intro s t ok hpc h
    simp only [run] at h
    cases hs : step cfg s e with
    | none => simp [hs] at h
    | some u =>
      rw [hs] at h
      simp only [Option.some_bind] at h
      have hu : u.pc ≠ .start := by
        obtain ⟨pc, tb, c, tr, trace⟩ := s
        cases e <;> cases pc <;> cases tb <;> cases c <;> cases tr <;>
          simp [step, takeTick, takeDone] at hs hpc <;>
          (try split_ifs at hs) <;>
          (try simp at hs) <;>
          (try (subst hs; simp))
      have hes := ih u t ok hu h
      have he : Ev.loadLocation ok ≠ e := by
        intro heq
        subst heq
        simp [step, hpc] at hs
      intro hmem
      rcases List.mem_cons.mp hmem with h1 | h1
      · exact he h1
      · exact hes h1

/-- The startup shape of the trace is kept by every transition. -/
theorem step_bootstrapped (cfg : Config) (s t : Sched) (e : Ev)
    (hs : (s.pc = .bootstrap ∧ s.trace = [.scrapeCall]) ∨
      (s.pc ≠ .start ∧ s.pc ≠ .bootstrap ∧ ∃ net rest, s.trace = bootTrace cfg net ++ rest))
    (h : step cfg s e = some t) :
    (t.pc = .bootstrap ∧ t.trace = [.scrapeCall]) ∨
      (t.pc ≠ .start ∧ t.pc ≠ .bootstrap ∧ ∃ net rest, t.trace = bootTrace cfg net ++ rest) := by
  rcases hs with ⟨hpc, htr⟩ | ⟨h1, h2, net, rest, htr⟩
  · obtain ⟨pc, tb, c, tr, trace⟩ := s
    simp only at hpc htr
    subst hpc htr
    cases e with
    | scrapeDone net =>
      right
      simp only [step] at h
      split_ifs at h <;> simp at h <;> subst h
      · exact ⟨by simp, by simp, net, [.panic, .wgDone], by simp [bootTrace]⟩
      · exact ⟨by simp, by simp, net, [], by simp [bootTrace]⟩
    | loadLocation ok => simp [step] at h
    | poll b => simp [step] at h
    | gate now => simp [step] at h
    | ret => simp [step] at h
    | tickFire =>
      left
      cases tr <;> simp [step] at h
      subst h
      simp
    | cancel =>
      left
      simp [step] at h
      subst h
      simp
  · right
    obtain ⟨hp1, hp2⟩ := step_past_bootstrap cfg s t e ⟨h1, h2⟩ h
    obtain ⟨ext, hext⟩ := step_trace_append cfg s t e h
    exact ⟨hp1, hp2, net, rest ++ ext, by rw [hext, htr, List.append_assoc]⟩

/-- The startup shape of the trace is kept by every execution. -/
theorem run_bootstrapped (cfg : Config) (evs : List Ev) :
    ∀ (s t : Sched),
      ((s.pc = .bootstrap ∧ s.trace = [.scrapeCall]) ∨
        (s.pc ≠ .start ∧ s.pc ≠ .bootstrap ∧ ∃ net rest, s.trace = bootTrace cfg net ++ rest)) →
      run cfg s evs = some t →
      ((t.pc = .bootstrap ∧ t.trace = [.scrapeCall]) ∨
        (t.pc ≠ .start ∧ t.pc ≠ .bootstrap ∧
          ∃ net rest, t.trace = bootTrace cfg net ++ rest)) := by
  induction evs with
  | nil =>
    intro s t hs h
    simp only [run, Option.some.injEq] at h
    subst h
    exact hs
  | cons e es ih =>
    intro s t hs h
    simp only [run] at h
    cases hu : step cfg s e with
    | none => simp [hu] at h
    | some u =>
      rw [hu] at h
      simp only [Option.some_bind] at h
      exact ih u t (step_bootstrapped cfg s u e hs hu) h

/-- An execution from the entry of `Run` in which the time zone was loaded has
the startup shape. -/
theorem run_from_start (cfg : Config) (evs : List Ev) :
    ∀ (s t : Sched), s.pc = .start → s.trace = [] → run cfg s evs = some t →
      Ev.loadLocation true ∈ evs →
      ((t.pc = .bootstrap ∧ t.trace = [.scrapeCall]) ∨
        (t.pc ≠ .start ∧ t.pc ≠ .bootstrap ∧
          ∃ net rest, t.trace = bootTrace cfg net ++ rest)) := by
  induction evs with
  | nil => intro s t _ _ _ hmem; simp at hmem
  | cons e es ih =>
    intro s t hpc htr h hmem
    simp only [run] at h
    cases hu : step cfg s e with
    | none => simp [hu] at h
    | some u =>
      rw [hu] at h
      simp only [Option.some_bind] at h
      obtain ⟨pc, tb, c, tk, trace⟩ := s
      simp only at hpc htr
      subst hpc htr
      cases e with
      | loadLocation ok =>
        cases ok with
        | true =>
          simp [step] at hu
          subst hu
          exact run_bootstrapped cfg es _ t (Or.inl ⟨rfl, rfl⟩) h
        | false =>
          simp [step] at hu
          subst hu
          have hno := run_no_loadLocation cfg es _ t true (by simp) h
          rcases List.mem_cons.mp hmem with h1 | h1
          · cases h1
          · exact absurd h1 hno
      | scrapeDone net => simp [step] at hu
      | poll b => simp [step] at hu
      | gate now => simp [step] at hu
      | ret => simp [step] at hu
      | tickFire =>
        cases tk <;> simp [step] at hu
        subst hu
        rcases List.mem_cons.mp hmem with h1 | h1
        · cases h1
        · exact ih _ t rfl rfl h h1
      | cancel =>
        simp [step] at hu
        subst hu
        rcases List.mem_cons.mp hmem with h1 | h1
        · cases h1
        · exact ih _ t rfl rfl h h1

/-- After a return with no ticker running, only the cancellation is enabled and
it changes neither the control point nor the trace. -/
theorem step_of_returned (cfg : Config) (s t : Sched) (e : Ev)
    (hpc : s.pc = .returned) (htk : s.tickerRunning = false) (h : step cfg s e = some t) :
    t.pc = .returned ∧ t.tickerRunning = false ∧ t.trace = s.trace := by
  obtain ⟨pc, tb, c, tr, trace⟩ := s
  simp only at hpc htk
  subst hpc htk
  cases e <;> cases tb <;> cases c <;>
    simp [step, takeTick, takeDone] at h <;>
    (try (subst h; simp))

/-- After a return with no ticker running, an execution changes neither the
control point nor the trace. -/
theorem run_of_returned (cfg : Config) (evs : List Ev) :
    ∀ (s t : Sched), s.pc = .returned → s.tickerRunning = false → run cfg s evs = some t →
      t.pc = .returned ∧ t.tickerRunning = false ∧ t.trace = s.trace := by
  induction evs with
  | nil =>
    intro s t hpc htk h
    simp only [run, Option.some.injEq] at h
    subst h
    exact ⟨hpc, htk, rfl⟩
  | cons e es ih =>
    intro s t hpc htk h
    simp only [run] at h
    cases hu : step cfg s e with
    | none => simp [hu] at h
    | some u =>
      rw [hu] at h
      simp only [Option.some_bind] at h
      obtain ⟨h1, h2, h3⟩ := step_of_returned cfg s u e hpc htk hu
      obtain ⟨h4, h5, h6⟩ := ih u t h1 h2 h
      exact ⟨h4, h5, by rw [h6, h3]⟩

/-- An execution from the entry of `Run` in which the time zone failed to load
consists of the error record and the deferred `wg.Done()`. -/
theorem run_from_start_failed (cfg : Config) (evs : List Ev) :
    ∀ (s t : Sched), s.pc = .start → s.trace = [] → s.tickerRunning = false →
      run cfg s evs = some t → Ev.loadLocation false ∈ evs →
      t.pc = .returned ∧ t.tickerRunning = false ∧
        t.trace = [.log .Error "Error loading location", .wgDone] := by
  induction evs with
  | nil => intro s t _ _ _ _ hmem; simp at hmem
  | cons e es ih =>
    intro s t hpc htr htk h hmem
    simp only [run] at h
    cases hu : step cfg s e with
    | none => simp [hu] at h
    | some u =>
      rw [hu] at h
      simp only [Option.some_bind] at h
      obtain ⟨pc, tb, c, tk, trace⟩ := s
      simp only at hpc htr htk
      subst hpc htr htk
      cases e with
      | loadLocation ok =>
        cases ok with
        | false =>
          simp [step] at hu
          subst hu
          exact run_of_returned cfg es _ t rfl rfl h
        | true =>
          simp [step] at hu
          subst hu
          have hno := run_no_loadLocation cfg es _ t false (by simp) h
          rcases List.mem_cons.mp hmem with h1 | h1
          · cases h1
          · exact absurd h1 hno
      | scrapeDone net => simp [step] at hu
      | poll b => simp [step] at hu
      | gate now => simp [step] at hu
      | ret => simp [step] at hu
      | tickFire => simp [step] at hu
      | cancel =>
        simp [step] at hu
        subst hu
        rcases List.mem_cons.mp hmem with h1 | h1
        · cases h1
        · exact ih _ t rfl rfl rfl h h1

/-- A transition that receives a tick leads to the control point after
`case <-ticker.C`. -/
theorem step_recvTick (cfg : Config) (s0 s : Sched) (e : Ev)
    (hstep : step cfg s0 e = some s) (hrecv : s.trace = s0.trace ++ [.recvTick]) :
    s.pc = .evaluating := by
  obtain ⟨pc, tb, c, tr, trace⟩ := s0
  cases e <;> cases pc <;> cases tb <;> cases c <;> cases tr <;>
    simp [step, takeTick, takeDone] at hstep <;>
    (try split_ifs at hstep) <;>
    (try simp at hstep) <;>
    (try subst hstep) <;>
    (try simp at hrecv) <;>
    (try rfl)

/-- The handling of a received tick. -/
theorem gate_of_evaluating (cfg : Config) (s : Sched) (now : LocalTime)
    (hpc : s.pc = .evaluating) :
    (shouldScrape cfg now = true →
      ∃ s1, step cfg s (.gate now) = some s1 ∧ s1.pc = .scraping ∧
        s1.trace = s.trace ++ [.gate now true, .log .Debug "Scraping started", .scrapeCall] ∧
        scrapeCalls s1.trace = scrapeCalls s.trace + 1 ∧
        ∀ net, ∃ s2, step cfg s1 (.scrapeDone net) = some s2 ∧ s2.pc = .selecting ∧
          scrapeCalls s2.trace = scrapeCalls s.trace + 1 ∧
          scrapeReturns s2.trace = scrapeReturns s.trace + 1) ∧
    (shouldScrape cfg now = false →
      ∃ s1, step cfg s (.gate now) = some s1 ∧ s1.pc = .selecting ∧
        s1.trace = s.trace ++ [.gate now false] ∧
        scrapeCalls s1.trace = scrapeCalls s.trace ∧
        scrapeReturns s1.trace = scrapeReturns s.trace) ∧
    (∀ history, (step cfg { s with trace := history } (.gate now)).map Sched.pc =
      (step cfg s (.gate now)).map Sched.pc) := by
  obtain ⟨pc, tb, c, tr, trace⟩ := s
  simp only at hpc
  subst hpc
  refine ⟨?_, ?_, ?_⟩
  · intro hopen
    simp [step, hopen, scrapeCalls, scrapeReturns, List.countP_append, Act.isScrapeCall,
      Act.isScrapeReturn]
  · intro hclosed
    simp [step, hclosed, scrapeCalls, scrapeReturns, List.countP_append, Act.isScrapeCall,
      Act.isScrapeReturn]
  · intro history
    cases hg : shouldScrape cfg now <;> simp [step, hg]

/-! ## The window gate: theorems -/

/-- Unfolding of `shouldScrape` into the four comparisons of the source. -/
theorem shouldScrape_eq_true_iff (cfg : Config) (now : LocalTime) :
    shouldScrape cfg now = true ↔
      (cfg.START_DAY ≤ (now.Weekday.val : Int) ∧ (now.Weekday.val : Int) ≤ cfg.END_DAY) ∧
      (cfg.START_HOUR ≤ (now.Hour.val : Int) ∧ (now.Hour.val : Int) < cfg.END_HOUR) := by
  simp [shouldScrape, and_assoc]

/-- C1: for every window configuration and every localized time with weekday
`w` and hour `h`, `shouldScrape` returns true iff `START_DAY ≤ w ≤ END_DAY` and
`START_HOUR ≤ h < END_HOUR`; with window 1,5,9,18, Monday 09:00 is open,
Monday 18:00 is closed and Sunday 12:00 is closed. -/
theorem shouldScrape_iff_window :
    (∀ (cfg : Config) (now : LocalTime),
      shouldScrape cfg now = true ↔
        (cfg.START_DAY ≤ (now.Weekday.val : Int) ∧ (now.Weekday.val : Int) ≤ cfg.END_DAY) ∧
        (cfg.START_HOUR ≤ (now.Hour.val : Int) ∧ (now.Hour.val : Int) < cfg.END_HOUR)) ∧
    shouldScrape cfgWeek { Weekday := 1, Hour := 9 } = true ∧
    shouldScrape cfgWeek { Weekday := 1, Hour := 18 } = false ∧
    shouldScrape cfgWeek { Weekday := 0, Hour := 12 } = false := by
  refine ⟨shouldScrape_eq_true_iff, ?_, ?_, ?_⟩ <;> decide

/-- C10 as stated fails: with the hour range 09:00 to 09:00 on Monday to Friday,
Monday 09:00 has its weekday inside the day range and its hour equal to
`START_HOUR`, and the gate is closed. -/
theorem startHour_closed_when_range_empty :
    (cfgEmptyHours.START_DAY ≤ ((1 : Fin 7).val : Int) ∧
      ((1 : Fin 7).val : Int) ≤ cfgEmptyHours.END_DAY) ∧
    (((9 : Fin 24).val : Int) = cfgEmptyHours.START_HOUR) ∧
    shouldScrape cfgEmptyHours { Weekday := 1, Hour := 9 } = false := by
  decide

/-- C10, amended: for every configuration and every localized time whose
weekday lies in the day range, an hour equal to `END_HOUR` is closed, and an
hour equal to `START_HOUR` is open exactly when `START_HOUR < END_HOUR`. -/
theorem shouldScrape_boundary (cfg : Config) (now : LocalTime)
    (hday : cfg.START_DAY ≤ (now.Weekday.val : Int) ∧ (now.Weekday.val : Int) ≤ cfg.END_DAY) :
    ((now.Hour.val : Int) = cfg.END_HOUR → shouldScrape cfg now = false) ∧
    ((now.Hour.val : Int) = cfg.START_HOUR →
      (shouldScrape cfg now = true ↔ cfg.START_HOUR < cfg.END_HOUR)) := by
  constructor
  · intro h
    have hne : ¬ shouldScrape cfg now = true := by
      rw [shouldScrape_eq_true_iff]
      omega
    simpa using hne
  · intro h
    rw [shouldScrape_eq_true_iff]
    omega

/-- Concrete instance: the window 1,5,9,18 on Monday 09:00. -/
theorem shouldScrape_boundary_witness :
    (((9 : Fin 24).val : Int) = cfgWeek.END_HOUR →
      shouldScrape cfgWeek { Weekday := 1, Hour := 9 } = false) ∧
    (((9 : Fin 24).val : Int) = cfgWeek.START_HOUR →
      (shouldScrape cfgWeek { Weekday := 1, Hour := 9 } = true ↔
        cfgWeek.START_HOUR < cfgWeek.END_HOUR)) :=
  shouldScrape_boundary cfgWeek { Weekday := 1, Hour := 9 } (by decide)

/-! ## The relay pipeline: theorems -/

/-- C2: when the source responds with a status code other than 200, the run
consists of the GET and one `Error` record with message "Failed to fetch data"
and the pair "status code" and the observed code; the destination receives
zero POST calls. -/
theorem scrape_fetch_bad_status (cfg : Config) (net : Net) (resp : HttpResponse)
    (hget : (net.Get cfg.URL_TESOURO).Response = some resp)
    (hstatus : resp.StatusCode ≠ 200) :
    scrape cfg net =
      [Effect.get cfg.URL_TESOURO,
        Effect.log Level.Error "Failed to fetch data"
          (some ("status code", LogValue.int resp.StatusCode))] ∧
    errorLogs (scrape cfg net) =
      [Effect.log Level.Error "Failed to fetch data"
        (some ("status code", LogValue.int resp.StatusCode))] ∧
    postCalls (scrape cfg net) = 0 ∧ sentBodies (scrape cfg net) = [] := by
  rw [scrape_of_bad_status cfg net resp hget hstatus]
  simp [errorLogs, postCalls, sentBodies, Effect.isErrorLog, Effect.isSend]

/-- Concrete instance: the source answers 503. -/
theorem scrape_fetch_bad_status_witness :
    scrape cfgWeek (netOf 503 [] 201) =
      [Effect.get cfgWeek.URL_TESOURO,
        Effect.log Level.Error "Failed to fetch data"
          (some ("status code", LogValue.int 503))] ∧
    errorLogs (scrape cfgWeek (netOf 503 [] 201)) =
      [Effect.log Level.Error "Failed to fetch data"
        (some ("status code", LogValue.int 503))] ∧
    postCalls (scrape cfgWeek (netOf 503 [] 201)) = 0 ∧
    sentBodies (scrape cfgWeek (netOf 503 [] 201)) = [] :=
  scrape_fetch_bad_status cfgWeek (netOf 503 [] 201)
    { StatusCode := 503, Wire := [], Body := { data := [], err := none } } rfl (by decide)

/-- C3: when the fetch succeeded with status 200, the body was read, the POST
was built and sent, and the destination answers with a status code other than
201, the run ends with the only `Error` record of the run, with message
"Failed to send data" and the pair "status code" and exactly the status code
the destination returned, followed by the two deferred closes. -/
theorem scrape_forward_bad_status (cfg : Config) (net : Net) (resp postRes : HttpResponse)
    (hget : (net.Get cfg.URL_TESOURO).Response = some resp) (h200 : resp.StatusCode = 200)
    (hread : resp.Body.err = none) (hurl : net.ParseURL (cfg.URL_API ++ "/bonds") = none)
    (hdo : net.Do (postRequest cfg resp.Body.data) = .ok postRes)
    (hstatus : postRes.StatusCode ≠ 201) :
    scrape cfg net =
      [Effect.get cfg.URL_TESOURO, Effect.readAll,
        Effect.newRequest "POST" (cfg.URL_API ++ "/bonds") resp.Body.data,
        Effect.send (postRequest cfg resp.Body.data),
        Effect.log Level.Error "Failed to send data"
          (some ("status code", LogValue.int postRes.StatusCode)),
        Effect.closePostBody, Effect.closeBody] ∧
    errorLogs (scrape cfg net) =
      [Effect.log Level.Error "Failed to send data"
        (some ("status code", LogValue.int postRes.StatusCode))] ∧
    postCalls (scrape cfg net) = 1 := by
  have h := scrape_of_built cfg net resp hget h200 hread hurl
  rw [hdo] at h
  simp only [hstatus, ne_eq, not_false_eq_true, if_true] at h
  rw [h]
  simp [errorLogs, postCalls, Effect.isErrorLog, Effect.isSend]

/-- Concrete instance: the source answers 200 and the destination answers 500. -/
theorem scrape_forward_bad_status_witness :
    scrape cfgWeek (netOf 200 [0x7b, 0x7d] 500) =
      [Effect.get cfgWeek.URL_TESOURO, Effect.readAll,
        Effect.newRequest "POST" (cfgWeek.URL_API ++ "/bonds") [0x7b, 0x7d],
        Effect.send (postRequest cfgWeek [0x7b, 0x7d]),
        Effect.log Level.Error "Failed to send data"
          (some ("status code", LogValue.int 500)),
        Effect.closePostBody, Effect.closeBody] ∧
    errorLogs (scrape cfgWeek (netOf 200 [0x7b, 0x7d] 500)) =
      [Effect.log Level.Error "Failed to send data"
        (some ("status code", LogValue.int 500))] ∧
    postCalls (scrape cfgWeek (netOf 200 [0x7b, 0x7d] 500)) = 1 :=
  scrape_forward_bad_status cfgWeek (netOf 200 [0x7b, 0x7d] 500)
    { StatusCode := 200, Wire := [0x7b, 0x7d], Body := { data := [0x7b, 0x7d], err := none } }
    { StatusCode := 500, Wire := [], Body := { data := [], err := none } }
    rfl rfl rfl rfl rfl (by decide)

/-- C4 as stated fails: the source sends the one byte `e9` with status 200, the
client delivers it decoded as `c3 a9`, and the body of the POST is `c3 a9`, not
the byte the source sent. -/
theorem scrape_posts_decoded_body :
    (netLatin1.Get cfgWeek.URL_TESOURO).Response.map
        (fun r => (r.StatusCode, r.Wire)) = some (200, [0xe9]) ∧
    sentBodies (scrape cfgWeek netLatin1) = [[0xc3, 0xa9]] ∧
    errorLogs (scrape cfgWeek netLatin1) = [] := by
  refine ⟨rfl, ?_, rfl⟩
  decide

/-- C4, amended: for every byte sequence `D` that `io.ReadAll` returns without
error from the body of a status-200 response (any byte sequence, also one that
is not valid UTF-8, also the empty one), `scrape` calls `http.NewRequest` with
method POST, the address `URL_API` followed by "/bonds" and a body equal to
`D`; every request it sends has body `D` byte for byte, that address, and the
headers `Content-Type: application/json` and `Authorization: Bearer ` followed
by `API_KEY`; and it sends exactly one when the address parses. -/
theorem scrape_forwards_read_bytes (cfg : Config) (net : Net) (resp : HttpResponse)
    (D : Bytes)
    (hget : (net.Get cfg.URL_TESOURO).Response = some resp) (h200 : resp.StatusCode = 200)
    (hbody : resp.Body = { data := D, err := none }) :
    Effect.newRequest "POST" (cfg.URL_API ++ "/bonds") D ∈ scrape cfg net ∧
    (∀ postReq, Effect.send postReq ∈ scrape cfg net →
      postReq.Body = D ∧ postReq.Method = "POST" ∧ postReq.URL = cfg.URL_API ++ "/bonds" ∧
      postReq.Header.Get "Content-Type" = some "application/json" ∧
      postReq.Header.Get "Authorization" = some ("Bearer " ++ cfg.API_KEY)) ∧
    (net.ParseURL (cfg.URL_API ++ "/bonds") = none →
      sentBodies (scrape cfg net) = [D] ∧ postCalls (scrape cfg net) = 1) := by
  have hread : resp.Body.err = none := by rw [hbody]
  have hdata : resp.Body.data = D := by rw [hbody]
  cases hurl : net.ParseURL (cfg.URL_API ++ "/bonds") with
  | some e =>
    have h := scrape_of_build_error cfg net resp e hget h200 hread hurl
    rw [hdata] at h
    rw [h]
    simp
  | none =>
    have h := scrape_of_built cfg net resp hget h200 hread hurl
    rw [hdata] at h
    have hD := (postRequest_fields cfg D).1
    refine ⟨by rw [h]; simp, ?_, fun _ => ?_⟩
    · intro postReq hmem
      rw [h] at hmem
      have hreq : postReq = postRequest cfg D := by
        cases hdo : net.Do (postRequest cfg D) with
        | error e => simpa [hdo] using hmem
        | ok postRes =>
          by_cases hs : postRes.StatusCode = 201
          · simpa [hdo, hs] using hmem
          · simpa [hdo, hs] using hmem
      subst hreq
      exact postRequest_fields cfg D
    · rw [h]
      cases hdo : net.Do (postRequest cfg D) with
      | error e => simp [sentBodies, postCalls, Effect.isSend, hD]
      | ok postRes =>
        by_cases hs : postRes.StatusCode = 201
        · simp [sentBodies, postCalls, Effect.isSend, hs, hD]
        · simp [sentBodies, postCalls, Effect.isSend, hs, hD]

/-- Concrete instance: a body of two bytes that are not valid UTF-8. -/
theorem scrape_forwards_read_bytes_witness :
    Effect.newRequest "POST" (cfgWeek.URL_API ++ "/bonds") [0xff, 0xfe] ∈
      scrape cfgWeek (netOf 200 [0xff, 0xfe] 201) ∧
    (∀ postReq, Effect.send postReq ∈ scrape cfgWeek (netOf 200 [0xff, 0xfe] 201) →
      postReq.Body = [0xff, 0xfe] ∧ postReq.Method = "POST" ∧
      postReq.URL = cfgWeek.URL_API ++ "/bonds" ∧
      postReq.Header.Get "Content-Type" = some "application/json" ∧
      postReq.Header.Get "Authorization" = some ("Bearer " ++ cfgWeek.API_KEY)) ∧
    ((netOf 200 [0xff, 0xfe] 201).ParseURL (cfgWeek.URL_API ++ "/bonds") = none →
      sentBodies (scrape cfgWeek (netOf 200 [0xff, 0xfe] 201)) = [[0xff, 0xfe]] ∧
      postCalls (scrape cfgWeek (netOf 200 [0xff, 0xfe] 201)) = 1) :=
  scrape_forwards_read_bytes cfgWeek (netOf 200 [0xff, 0xfe] 201)
    { StatusCode := 200, Wire := [0xff, 0xfe], Body := { data := [0xff, 0xfe], err := none } }
    [0xff, 0xfe] rfl rfl rfl

/-- C5 at the failing input: the source truncates its body, the client returns
the status-200 response with the read error in `Err`; the conditions of a
successful run do not hold, and the run logs no error record and posts the
truncated body. -/
theorem scrape_success_on_truncated_body :
    ¬ AllStagesOk cfgWeek netTruncated ∧
    errorLogs (scrape cfgWeek netTruncated) = [] ∧
    sentBodies (scrape cfgWeek netTruncated) = [[0x5b]] := by
  refine ⟨?_, rfl, by decide⟩
  rintro ⟨resp, postRes, -, herr, -⟩
  simp [netTruncated] at herr

/-- C9 at the failing input: the GET result carries the non-nil error
"unexpected EOF" beside a status-200 response; the run is not reported as a
fetch failure: the status code is inspected, the body is read and posted, and
no record is logged. -/
theorem scrape_ignores_err_beside_response :
    (netTruncated.Get cfgWeek.URL_TESOURO).Err = some "unexpected EOF" ∧
    scrape cfgWeek netTruncated =
      [Effect.get cfgWeek.URL_TESOURO, Effect.readAll,
        Effect.newRequest "POST" (cfgWeek.URL_API ++ "/bonds") [0x5b],
        Effect.send (postRequest cfgWeek [0x5b]),
        Effect.closePostBody, Effect.closeBody] ∧
    postCalls (scrape cfgWeek netTruncated) = 1 :=
  ⟨rfl, rfl, rfl⟩

/-! ## The scheduler: theorems -/

/-- C6 as stated fails: when `time.LoadLocation` returns an error, `Run` logs
and returns without any pipeline invocation and without creating the ticker. -/
theorem run_without_bootstrap_when_location_fails :
    (run cfgWeek Sched.init [.loadLocation false]).map
        (fun s => (s.pc, scrapeCalls s.trace, s.tickerRunning)) =
      some (.returned, 0, false) := by
  decide

/-- C6, amended: in every execution of `Run` from its entry, if
`time.LoadLocation` succeeded then either the startup invocation is executing
and is the only action so far, or the trace starts with exactly one pipeline
invocation followed by the creation of the ticker, with no consultation of
`shouldScrape` and no receive from either channel before it; if
`time.LoadLocation` failed then `Run` has returned, its whole trace is the
`Error` record "Error loading location" and the deferred `wg.Done()`, no
pipeline invocation was started and no ticker was created.  Both outcomes of
`time.LoadLocation` are enabled at the entry, whatever the configuration. -/
theorem run_bootstrap_exactly_once (cfg : Config) (evs : List Ev) (s : Sched)
    (hrun : run cfg Sched.init evs = some s) :
    (Ev.loadLocation true ∈ evs →
      (s.pc = .bootstrap ∧ s.trace = [.scrapeCall]) ∨
      (s.pc ≠ .start ∧ s.pc ≠ .bootstrap ∧
        ∃ net rest, s.trace = bootTrace cfg net ++ rest)) ∧
    (Ev.loadLocation false ∈ evs →
      s.pc = .returned ∧ s.trace = [Act.log Level.Error "Error loading location", Act.wgDone] ∧
      scrapeCalls s.trace = 0 ∧ s.tickerRunning = false) ∧
    (∀ net, scrapeCalls (bootTrace cfg net) = 1 ∧ scrapeReturns (bootTrace cfg net) = 1 ∧
      (bootTrace cfg net).all (fun a => !a.isGate && !a.isRecv) = true ∧
      (bootTrace cfg net).map Act.isNewTicker = [false, false, false, true]) ∧
    (∀ net, ∃ t, run cfg Sched.init [.loadLocation true, .scrapeDone net] = some t ∧
      ∃ rest, t.trace = bootTrace cfg net ++ rest) ∧
    (∃ t, run cfg Sched.init [.loadLocation false] = some t ∧ t.pc = .returned ∧
      t.trace = [Act.log Level.Error "Error loading location", Act.wgDone]) := by
  refine ⟨run_from_start cfg evs Sched.init s rfl rfl hrun, ?_, ?_, ?_, ?_⟩
  · intro hloc
    obtain ⟨h1, h2, h3⟩ := run_from_start_failed cfg evs Sched.init s rfl rfl rfl hrun hloc
    refine ⟨h1, h3, ?_, h2⟩
    rw [h3]
    simp [scrapeCalls, Act.isScrapeCall]
  · intro net
    simp [bootTrace, scrapeCalls, scrapeReturns, Act.isScrapeCall, Act.isScrapeReturn,
      Act.isGate, Act.isRecv, Act.isNewTicker]
  · intro net
    by_cases hp : tickerPeriod cfg ≤ 0
    · exact ⟨_, by simp [run, step, Sched.init, hp]; rfl, [.panic, .wgDone],
        by simp [bootTrace]⟩
    · exact ⟨_, by simp [run, step, Sched.init, hp]; rfl, [], by simp [bootTrace]⟩
  · exact ⟨_, rfl, rfl, rfl⟩

/-- Concrete instance: the execution that leads from the entry of `Run` to
`schedWaiting`, and the execution in which the time zone fails to load,
followed by a cancellation. -/
theorem run_bootstrap_exactly_once_witness :
    ((schedWaiting.pc = .bootstrap ∧ schedWaiting.trace = [.scrapeCall]) ∨
      (schedWaiting.pc ≠ .start ∧ schedWaiting.pc ≠ .bootstrap ∧
        ∃ net rest, schedWaiting.trace = bootTrace cfgWeek net ++ rest)) ∧
    (∀ s, run cfgWeek Sched.init [.loadLocation false, .cancel] = some s →
      s.pc = .returned ∧
      s.trace = [Act.log Level.Error "Error loading location", Act.wgDone] ∧
      scrapeCalls s.trace = 0 ∧ s.tickerRunning = false) :=
  ⟨(run_bootstrap_exactly_once cfgWeek
      [.loadLocation true, .scrapeDone netDown, .poll false] schedWaiting rfl).1
      (List.mem_cons_self _ _),
    fun s hs => (run_bootstrap_exactly_once cfgWeek [.loadLocation false, .cancel] s hs).2.1
      (List.mem_cons_self _ _)⟩

/-- C7: a cancellation delivered while the loop is blocked in its `select`
takes the `ctx.Done()` case; from there `Run` returns with the ticker stopped,
and whatever happens next no pipeline invocation is started.  A cancellation
delivered while an invocation is executing leaves the control point and the
trace unchanged, and every execution that goes on to the return of `Run` sees
that invocation return first; once it has returned, the exit is enabled. -/
theorem cancel_waiting_and_in_flight (cfg : Config) (sw sf : Sched)
    (hw : sw.pc = .waiting) (hf : sf.pc = .scraping ∨ sf.pc = .bootstrap) :
    (∃ s1 s2, step cfg sw .cancel = some s1 ∧ s1.pc = .stopping ∧
      step cfg s1 .ret = some s2 ∧ s2.pc = .returned ∧ s2.tickerRunning = false ∧
      Act.tickerStop ∈ s2.trace ∧
      ∀ evs t, run cfg s1 evs = some t →
        (t.pc = .stopping ∨ t.pc = .returned) ∧ scrapeCalls t.trace = scrapeCalls sw.trace) ∧
    (∃ s1, step cfg sf .cancel = some s1 ∧ s1.pc = sf.pc ∧ s1.trace = sf.trace ∧
      s1.cancelled = true ∧
      (∀ evs t, run cfg s1 evs = some t → t.pc = .returned →
        scrapeReturns sf.trace < scrapeReturns t.trace) ∧
      (sf.pc = .scraping ∨ 0 < tickerPeriod cfg → ∀ net, ∃ t,
        run cfg s1 [.scrapeDone net, .poll false, .ret] = some t ∧ t.pc = .returned ∧
        scrapeCalls t.trace = scrapeCalls sf.trace)) := by
  constructor
  · obtain ⟨pc, tb, c, tr, trace⟩ := sw
    simp only at hw
    subst hw
    refine ⟨_, _, by simp [step]; rfl, by simp [takeDone], by simp [step, takeDone]; rfl,
      rfl, rfl, by simp [takeDone], ?_⟩
    intro evs t ht
    have h := run_of_stopping cfg evs _ t (Or.inl (by simp [takeDone])) ht
    refine ⟨h.1, ?_⟩
    rw [h.2]
    simp [takeDone, scrapeCalls, List.countP_append, Act.isScrapeCall]
  · obtain ⟨pc, tb, c, tr, trace⟩ := sf
    simp only at hf
    have hne : pc ≠ .waiting := by rcases hf with h | h <;> simp [h]
    refine ⟨{ pc := pc, tickBuf := tb, cancelled := true, tickerRunning := tr, trace := trace },
      by simp [step, hne], rfl, rfl, rfl, ?_, ?_⟩
    · intro evs t ht hret
      rcases run_of_in_flight cfg evs _ t hf ht with ⟨hpc, -⟩ | hlt
      · simp only at hpc
        rw [hret] at hpc
        rcases hf with h | h <;> rw [h] at hpc <;> cases hpc
      · exact hlt
    · intro hok net
      rcases hf with h | h
      · subst h
        cases tb <;>
          simp [run, step, takeDone, scrapeCalls, List.countP_append, Act.isScrapeCall]
      · subst h
        have hp : ¬ tickerPeriod cfg ≤ 0 := by
          rcases hok with h | h
          · cases h
          · omega
        cases tb <;>
          simp [run, step, hp, takeDone, scrapeCalls, List.countP_append, Act.isScrapeCall]

/-- Concrete instance: the cancellation reaches `schedWaiting` and, in another
execution, `schedScraping`. -/
theorem cancel_waiting_and_in_flight_witness :
    (∃ s1 s2, step cfgWeek schedWaiting .cancel = some s1 ∧ s1.pc = .stopping ∧
      step cfgWeek s1 .ret = some s2 ∧ s2.pc = .returned ∧ s2.tickerRunning = false ∧
      Act.tickerStop ∈ s2.trace ∧
      ∀ evs t, run cfgWeek s1 evs = some t →
        (t.pc = .stopping ∨ t.pc = .returned) ∧
          scrapeCalls t.trace = scrapeCalls schedWaiting.trace) ∧
    (∃ s1, step cfgWeek schedScraping .cancel = some s1 ∧ s1.pc = schedScraping.pc ∧
      s1.trace = schedScraping.trace ∧ s1.cancelled = true ∧
      (∀ evs t, run cfgWeek s1 evs = some t → t.pc = .returned →
        scrapeReturns schedScraping.trace < scrapeReturns t.trace) ∧
      (schedScraping.pc = .scraping ∨ 0 < tickerPeriod cfgWeek → ∀ net, ∃ t,
        run cfgWeek s1 [.scrapeDone net, .poll false, .ret] = some t ∧ t.pc = .returned ∧
        scrapeCalls t.trace = scrapeCalls schedScraping.trace)) :=
  cancel_waiting_and_in_flight cfgWeek schedWaiting schedScraping rfl (Or.inl rfl)

/-- C8 as stated fails: from `schedWaiting` the ticker fires three times with
the window open at every consultation; the second and third tick fire while the
invocation of the first is executing, the channel of capacity one keeps one of
them, and the loop ends blocked in its `select` with the channel empty after
two pipeline invocations and two consultations of `shouldScrape`. -/
theorem run_drops_tick_when_channel_full :
    threeTicks.countP Ev.isTickFire = 3 ∧ shouldScrape cfgWeek monday9 = true ∧
    (run cfgWeek schedWaiting threeTicks).map
        (fun s => (s.pc, s.tickBuf, scrapeCalls s.trace - scrapeCalls schedWaiting.trace,
          s.trace.countP Act.isGate)) =
      some (.waiting, false, 2, 2) := by
  decide

/-- C8, amended: for every tick the loop receives from `ticker.C`, the loop is
at the control point after `case <-ticker.C`, where it consults `shouldScrape`
once; when it is true exactly one invocation is started and, once it returns
(whatever it met on the network), the loop is back at its `select`; when it is
false no invocation is started and the loop is back at its `select`.  The next
control point does not depend on the trace, that is, on what earlier cycles
did or logged. -/
theorem tick_received_scrapes_iff_gate_open (cfg : Config) (s0 s : Sched) (e : Ev)
    (now : LocalTime)
    (hstep : step cfg s0 e = some s) (hrecv : s.trace = s0.trace ++ [Act.recvTick]) :
    s.pc = .evaluating ∧
    (shouldScrape cfg now = true →
      ∃ s1, step cfg s (.gate now) = some s1 ∧ s1.pc = .scraping ∧
        s1.trace = s.trace ++
          [Act.gate now true, Act.log Level.Debug "Scraping started", Act.scrapeCall] ∧
        scrapeCalls s1.trace = scrapeCalls s.trace + 1 ∧
        ∀ net, ∃ s2, step cfg s1 (.scrapeDone net) = some s2 ∧ s2.pc = .selecting ∧
          scrapeCalls s2.trace = scrapeCalls s.trace + 1 ∧
          scrapeReturns s2.trace = scrapeReturns s.trace + 1) ∧
    (shouldScrape cfg now = false →
      ∃ s1, step cfg s (.gate now) = some s1 ∧ s1.pc = .selecting ∧
        s1.trace = s.trace ++ [Act.gate now false] ∧
        scrapeCalls s1.trace = scrapeCalls s.trace ∧
        scrapeReturns s1.trace = scrapeReturns s.trace) ∧
    (∀ history, (step cfg { s with trace := history } (.gate now)).map Sched.pc =
      (step cfg s (.gate now)).map Sched.pc) :=
  ⟨step_recvTick cfg s0 s e hstep hrecv,
    gate_of_evaluating cfg s now (step_recvTick cfg s0 s e hstep hrecv)⟩

/-- Concrete instance: the tick that reaches `schedWaiting`, once on Monday
09:00 (window open) and once on Sunday 12:00 (window closed), with the window
1,5,9,18. -/
theorem tick_received_scrapes_iff_gate_open_witness :
    (∃ s1, step cfgWeek schedEvaluating (.gate monday9) = some s1 ∧ s1.pc = .scraping ∧
      s1.trace = schedEvaluating.trace ++
        [Act.gate monday9 true, Act.log Level.Debug "Scraping started", Act.scrapeCall] ∧
      scrapeCalls s1.trace = scrapeCalls schedEvaluating.trace + 1 ∧
      ∀ net, ∃ s2, step cfgWeek s1 (.scrapeDone net) = some s2 ∧ s2.pc = .selecting ∧
        scrapeCalls s2.trace = scrapeCalls schedEvaluating.trace + 1 ∧
        scrapeReturns s2.trace = scrapeReturns schedEvaluating.trace + 1) ∧
    (∃ s1, step cfgWeek schedEvaluating (.gate sunday12) = some s1 ∧ s1.pc = .selecting ∧
      s1.trace = schedEvaluating.trace ++ [Act.gate sunday12 false] ∧
      scrapeCalls s1.trace = scrapeCalls schedEvaluating.trace ∧
      scrapeReturns s1.trace = scrapeReturns schedEvaluating.trace) :=
  ⟨(tick_received_scrapes_iff_gate_open cfgWeek schedWaiting schedEvaluating .tickFire
      monday9 rfl rfl).2.1 (by decide),
    (tick_received_scrapes_iff_gate_open cfgWeek schedWaiting schedEvaluating .tickFire
      sunday12 rfl rfl).2.2.1 (by decide)⟩

end Feeder
